import Mathlib

/-!
Shallow embedding of the avatar converter (src/main.js): the animation channel
filter, the donor-skeleton graft, the skeleton joint pruning with inverse-bind
recomputation, the rigid skin assigner, and the atlas grid layout, together
with theorems checking the specification's claims against it.  JS doubles are
modelled as exact rationals; JS object identity of joint nodes is modelled by
an explicit id field.
-/

namespace Msq

/-- Fixed uniform scale factor, src/main.js line 62: `const scale = 0.032 * 1.1`. -/
def scale : ℚ := 0.032 * 1.1

/-- Keyframe output values of a sampler, modelled as exact rational triples. -/
abbrev Vec3 := ℚ × ℚ × ℚ

/-- Model of gl-matrix `vec3.scale(out, a, b)`: componentwise `a[i] * b`
(used at src/main.js line 200 and 256). -/
def vec3scale (v : Vec3) (s : ℚ) : Vec3 := (v.1 * s, v.2.1 * s, v.2.2 * s)

/-- An animation channel: the name of its target node (`getTargetNode().getName()`),
its target path (`getTargetPath()`), and the keyframe output values of its
sampler (`getSampler().getOutput()`), src/main.js lines 183–202. -/
structure Channel where
  targetName : String
  targetPath : String
  output : List Vec3
deriving DecidableEq

/-- Name of the designated root node, src/main.js line 184. -/
def rootNodeName : String := "Controller-Global"

/-- Per-channel filtering, src/main.js lines 183–212.  Returns `none` when the
channel is removed (`removeChannel` / `detach` / `dispose`), otherwise the
possibly rewritten channel: at the designated root node a scale channel is
removed, a translation channel has every keyframe scaled, anything else is
kept; at every other node only rotation channels are kept. -/
def filterChannel (sc : ℚ) (ch : Channel) : Option Channel :=
  if ch.targetName = rootNodeName then
    if ch.targetPath = "scale" then
      none
    else if ch.targetPath = "translation" then
      some { ch with output := ch.output.map (fun v => vec3scale v sc) }
    else
      some ch
  else
    if ch.targetPath = "rotation" then some ch else none

/-- An animation is its list of channels (samplers are reachable through the
channels and carry no independent state we need). -/
structure Animation where
  channels : List Channel
deriving DecidableEq

/-- Channel loop of src/main.js lines 180–213: every channel is run through
`filterChannel`; removed channels disappear from the animation. -/
def filterAnimation (sc : ℚ) (a : Animation) : Animation :=
  ⟨a.channels.filterMap (filterChannel sc)⟩

/-- Body of the `while(i--)` loop over animations, src/main.js lines 179–224:
the channels are filtered, then every sampler is detached and disposed and the
animation itself is detached and disposed unconditionally (lines 216–223), so
no animation survives the loop regardless of its remaining channels. -/
def processAnimation (sc : ℚ) (a : Animation) : Option Animation :=
  let _ := filterAnimation sc a
  none

/-- Animation pass over the root's animation list, src/main.js lines 176–224:
the list of animations still attached to the root once the loop has run. -/
def animationPass (sc : ℚ) (anims : List Animation) : List Animation :=
  anims.filterMap (processAnimation sc)

/-- Error taxonomy of spec section 7 for the failures the embedding can hit. -/
inductive ConvertError where
  | missingDonorRoot
deriving DecidableEq

/-- State produced by a successful graft: the target scene's child list and the
skin's skeleton root. -/
structure GraftState where
  sceneChildren : List ℕ
  skeleton : Option ℕ
deriving DecidableEq

/-- Donor-skeleton graft, src/main.js lines 122–127:
`sceneDonor.listChildren()[0]` on a childless donor scene yields `undefined`
and the subsequent `scene.addChild(undefined)` throws, aborting the
conversion; the spec names this failure `MissingDonorRoot`.  Otherwise the
donor root is appended to the target scene's children and becomes the skin's
skeleton root. -/
def graft (sceneChildren donorChildren : List ℕ) : Except ConvertError GraftState :=
  match donorChildren.head? with
  | none => Except.error ConvertError.missingDonorRoot
  | some skinRoot => Except.ok ⟨sceneChildren ++ [skinRoot], some skinRoot⟩

/-- JOINTS_0 buffer written by src/main.js lines 303–317: a `Uint8Array` of
length `4 * count` is zero-initialised and slot `w * 4 + 0` of every vertex
`w` is set to the joint index; a `Uint8Array` store truncates the written
value modulo 256. -/
def joints0Array (jointIndex count : ℕ) : List ℕ :=
  (List.range (count * 4)).map (fun i => if i % 4 = 0 then jointIndex % 256 else 0)

/-- WEIGHTS_0 buffer written by src/main.js lines 304–318: a `Float32Array` of
length `4 * count` is zero-initialised and slot `w * 4 + 0` of every vertex
`w` is set to 1. -/
def weights0Array (count : ℕ) : List ℚ :=
  (List.range (count * 4)).map (fun i => if i % 4 = 0 then 1 else 0)

/-- Atlas grid side, src/main.js line 385: `Math.ceil(Math.sqrt(primitiveCount))`,
modelled exactly over naturals as the ceiling of the square root. -/
def atlasWidth (primitiveCount : ℕ) : ℕ :=
  if Nat.sqrt primitiveCount * Nat.sqrt primitiveCount = primitiveCount then
    Nat.sqrt primitiveCount
  else
    Nat.sqrt primitiveCount + 1

/-- Target atlas pixel size, src/main.js line 386: `atlasWidth * 64`. -/
def targetAtlasSize (primitiveCount : ℕ) : ℕ := atlasWidth primitiveCount * 64

/-- Modelled from the spec: `remapUvsToAtlas` lives in src/includes/atlas.js,
which is not part of the repository snapshot; spec section 4.5 gives
`remapUv(uvBuffer, slotIndex, gridSide)` as mapping every `(u, v)` to
`((u + col)/gridSide, (v + row)/gridSide)` with `col = slotIndex % gridSide`
and `row = slotIndex / gridSide` (integer division). -/
def remapUv (slotIndex gridSide : ℕ) (uv : ℚ × ℚ) : ℚ × ℚ :=
  ((uv.1 + (slotIndex % gridSide : ℕ)) / (gridSide : ℚ),
   (uv.2 + (slotIndex / gridSide : ℕ)) / (gridSide : ℚ))

/-- A 4×4 matrix of exact rationals, modelling a gl-matrix `mat4`. -/
abbrev M4 := Matrix (Fin 4) (Fin 4) ℚ

/-- Model of gl-matrix `mat4.invert` (src/main.js line 162): null for a
singular matrix, otherwise the inverse, which equals the adjugate divided by
the determinant. -/
def mat4invert (m : M4) : Option M4 :=
  if m.det = 0 then none else some (m.det⁻¹ • m.adjugate)

/-- A joint node of the skin.  The `id` field models JS object identity (the
source removes joints by object reference); `name` is `getName()`; `world`
models the value `getWorldMatrix()` reads off the scene tree for this joint at
the time the pass runs. -/
structure Joint where
  id : ℕ
  name : String
  world : M4

/-- A skin: the ordered joint list (`listJoints()`) and the raw contents of
the inverse-bind-matrix accessor, one matrix per element. -/
structure Skin where
  joints : List Joint
  ibm : List M4

/-- Name-to-joint index built by src/main.js lines 137–140:
`jointsIndex[joints[i].getName()] = joints[i]` in ascending order, so on a
name collision the joint with the larger index wins. -/
def buildIndex (js : List Joint) : String → Option Joint :=
  js.foldl (fun idx j => fun n => if n = j.name then some j else idx n) (fun _ => none)

/-- Removal of one joint from the joint list, src/main.js lines 146–150:
`skin.removeJoint(joint)` drops the references to that node object. -/
def removeJoint (js : List Joint) (j : Joint) : List Joint :=
  js.filter (fun k => k.id ≠ j.id)

/-- One iteration of the deny-list loop, src/main.js lines 142–151: the name is
looked up in the index built before the loop; a missing name is silently
skipped (`if (!joint) continue`), a found joint is removed. -/
def pruneStep (cur : List Joint) (idx : String → Option Joint) (n : String) : List Joint :=
  match idx n with
  | none => cur
  | some j => removeJoint cur j

/-- Joint pruning, src/main.js lines 134–152: the name index is built once
over the original joint list, then each deny-listed name is processed in
order. -/
def pruneJoints (deny : List String) (js : List Joint) : List Joint :=
  deny.foldl (fun cur n => pruneStep cur (buildIndex js) n) js

/-- Prune block effect on the skin, src/main.js lines 134–152: the joint list
shrinks; the inverse-bind-matrix accessor is not touched by this block. -/
def prunePass (deny : List String) (s : Skin) : Skin :=
  { s with joints := pruneJoints deny s.joints }

/-- Recompute block, src/main.js lines 155–164: a fresh buffer of
`16 * joints.length` floats is installed in the accessor and element `i` is
set to `mat4.invert(joints[i].getWorldMatrix())`.  `setElement` on the null
result of a singular inversion throws, modelled as `none` (the spec's
`DegenerateTransform`). -/
def recomputePass (s : Skin) : Option Skin :=
  if ∀ j ∈ s.joints, j.world.det ≠ 0 then
    some { s with ibm := s.joints.map (fun j => j.world.det⁻¹ • j.world.adjugate) }
  else
    none

/-- Name-to-index map built by src/main.js lines 167–173 over the joint list:
`jointsIndex[joints[i].getName()] = i` in ascending order, so the lookup
prefers the largest index carrying the name. -/
def nameToIndexFrom (n : String) : ℕ → List Joint → Option ℕ
  | _, [] => none
  | i, j :: rest =>
    match nameToIndexFrom n (i + 1) rest with
    | some k => some k
    | none => if n = j.name then some i else none

/-- Lookup in the name-to-index map of src/main.js lines 167–173. -/
def nameToIndex (js : List Joint) (n : String) : Option ℕ :=
  nameToIndexFrom n 0 js

/-- Prune-then-recompute sequence, src/main.js lines 134–164. -/
def spliceSeq (deny : List String) (s : Skin) : Option Skin :=
  recomputePass (prunePass deny s)

/-- Model of gl-matrix `vec3.transformMat4`, the position transform used by
`transformMesh`: homogeneous transform with perspective divide, where a zero
`w` falls back to 1 (`w = w || 1.0`). -/
def transformMat4 (m : M4) (v : Vec3) : Vec3 :=
  let w0 : ℚ := m 3 0 * v.1 + m 3 1 * v.2.1 + m 3 2 * v.2.2 + m 3 3
  let w : ℚ := if w0 = 0 then 1 else w0
  ((m 0 0 * v.1 + m 0 1 * v.2.1 + m 0 2 * v.2.2 + m 0 3) / w,
   (m 1 0 * v.1 + m 1 1 * v.2.1 + m 1 2 * v.2.2 + m 1 3) / w,
   (m 2 0 * v.1 + m 2 1 * v.2.1 + m 2 2 * v.2.2 + m 2 3) / w)

/-- A mesh primitive: its POSITION buffer plus the JOINTS_0 and WEIGHTS_0
attribute buffers once assigned (`none` before assignment). -/
structure Primitive where
  positions : List Vec3
  joints0 : Option (List ℕ)
  weights0 : Option (List ℚ)
deriving DecidableEq

/-- A mesh is its list of primitives. -/
structure Mesh where
  primitives : List Primitive
deriving DecidableEq

/-- Model of `transformMesh(mesh, matrix)` from the document library as used
at src/main.js lines 276 and 323: every vertex position of every primitive of
the whole mesh is transformed by the matrix. -/
def transformMesh (m : M4) (mesh : Mesh) : Mesh :=
  ⟨mesh.primitives.map (fun p => { p with positions := p.positions.map (transformMat4 m) })⟩

/-- Model of gl-matrix `mat4.fromScaling` (src/main.js line 276):
`diag(s, s, s, 1)`. -/
def scalingMat (s : ℚ) : M4 :=
  fun i j => if i = j then (if (i : ℕ) < 3 then s else 1) else 0

/-- Attribute assignment of src/main.js lines 301–321 on one primitive: fresh
JOINTS_0 and WEIGHTS_0 buffers sized by the POSITION count. -/
def setRigid (jointIndex : ℕ) (p : Primitive) : Primitive :=
  { p with
    joints0 := some (joints0Array jointIndex p.positions.length),
    weights0 := some (weights0Array p.positions.length) }

/-- Pointwise update of the primitive at a given index, modelling the in-place
attribute assignment on `primitives[p]` in src/main.js lines 299–321. -/
def updateNth (f : Primitive → Primitive) : ℕ → List Primitive → List Primitive
  | _, [] => []
  | 0, p :: rest => f p :: rest
  | n + 1, p :: rest => p :: updateNth f n rest

/-- Mesh handling for a mesh-bearing node whose ancestor walk resolved a joint
index, src/main.js lines 267–327: the node's world matrix is captured, the
mesh is scaled down by `scale`, and then the skinning loop runs over the
primitives — inside that loop, after assigning the rigid JOINTS_0/WEIGHTS_0
buffers of primitive `p`, `transformMesh(mesh, worldTransform)` is invoked on
the whole mesh (line 323), once per primitive. -/
def processMesh (worldTransform : M4) (jointIndex : ℕ) (mesh : Mesh) : Mesh :=
  let mesh1 := transformMesh (scalingMat scale) mesh
  (List.range mesh1.primitives.length).foldl
    (fun cur p => transformMesh worldTransform ⟨updateNth (setRigid jointIndex) p cur.primitives⟩)
    mesh1

/-- Concrete animation with a single rotation channel on a non-root node. -/
def c1Anim : Animation := ⟨[⟨"Hips", "rotation", []⟩]⟩

/-- Concrete non-root translation channel. -/
def c1Chan : Channel := ⟨"Hips", "translation", []⟩

/-- Concrete non-root rotation channel. -/
def c1ChanRot : Channel := ⟨"Hips", "rotation", []⟩

/-- Concrete world transform for the mesh bake check: translation by 1 along
x (identity plus a single entry in row 0, column 3). -/
def translX : M4 :=
  fun i j => if i = j then 1 else if i = 0 ∧ j = 3 then 1 else 0

/-- Concrete two-primitive mesh, each primitive a single vertex at the
origin. -/
def c2Mesh : Mesh := ⟨[⟨[(0, 0, 0)], none, none⟩, ⟨[(0, 0, 0)], none, none⟩]⟩

/-- Concrete root-node translation channel with one keyframe at (10, 0, 0). -/
def c7Chan : Channel := ⟨"Controller-Global", "translation", [(10, 0, 0)]⟩

/-- Concrete two-joint skin with one deny-listed joint name. -/
def c3Skin : Skin := ⟨[⟨0, "Spine", 1⟩, ⟨1, "Jaw", 1⟩], [1, 1]⟩

/-- Skin produced from `c3Skin` by prune plus recompute. -/
def c3Skin1 : Skin := ⟨[⟨0, "Spine", 1⟩], [(1 : M4).det⁻¹ • (1 : M4).adjugate]⟩

/-- Concrete one-joint skin with identity world transform and stale buffer. -/
def c4Skin : Skin := ⟨[⟨0, "Hips", 1⟩], [1]⟩

/-- Skin produced from `c4Skin` by the recompute pass. -/
def c4Skin1 : Skin := ⟨[⟨0, "Hips", 1⟩], [(1 : M4).det⁻¹ • (1 : M4).adjugate]⟩

/-- Concrete skin with two distinct joint objects sharing one name. -/
def c9Dup : Skin := ⟨[⟨0, "X", 1⟩, ⟨1, "X", 1⟩], [1, 1]⟩

/-- Result of the first prune-plus-recompute run on `c9Dup`. -/
def c9Dup1 : Skin := ⟨[⟨0, "X", 1⟩], [(1 : M4).det⁻¹ • (1 : M4).adjugate]⟩

/-- Result of the second prune-plus-recompute run on `c9Dup`. -/
def c9Dup2 : Skin := ⟨[], []⟩

/-- Concrete two-joint skin with unique names and one deny-listed name. -/
def c9s0 : Skin := ⟨[⟨0, "Spine", 1⟩, ⟨1, "Tail", 1⟩], [1, 1]⟩

/-- Result of the first prune-plus-recompute run on `c9s0`. -/
def c9s1 : Skin := ⟨[⟨0, "Spine", 1⟩], [(1 : M4).det⁻¹ • (1 : M4).adjugate]⟩

/-- Helper: reading an element of a range-generated buffer. -/
lemma getElem_rangeMap {α : Type} (f : ℕ → α) (n i : ℕ) (h : i < n) :
    ((List.range n).map f)[i]? = some (f i) := by
  rw [List.getElem?_map, List.getElem?_range h]
  rfl

/-- C1 counterexample: an animation that still has a rotation channel after
channel filtering is nevertheless released — the animation pass leaves no
animation attached at all, so the claim's retention clause fails on the code
(src/main.js lines 216–223 dispose every animation unconditionally). -/
theorem C1_counterexample :
    (filterAnimation scale c1Anim).channels = [⟨"Hips", "rotation", []⟩] ∧
    animationPass scale [c1Anim] = [] := by
  decide

/-- C1 amended: for every channel whose target node is not the designated root
node, the channel filter deletes the channel unless its target path is
rotation, and passes rotation channels through unchanged; however, after
channel filtering every sampler and every animation is detached and released
unconditionally, so no animation survives the pass — not even one that still
has rotation channels. -/
theorem C1_amended (sc : ℚ) (ch chRot : Channel) (anims : List Animation)
    (hname : ch.targetName ≠ rootNodeName) (hpath : ch.targetPath ≠ "rotation")
    (hname2 : chRot.targetName ≠ rootNodeName) (hpath2 : chRot.targetPath = "rotation") :
    filterChannel sc ch = none ∧ filterChannel sc chRot = some chRot ∧
    animationPass sc anims = [] := by
  refine ⟨?_, ?_, ?_⟩
  · unfold filterChannel
    rw [if_neg hname, if_neg hpath]
  · unfold filterChannel
    rw [if_neg hname2, if_pos hpath2]
  · unfold animationPass
    rw [List.filterMap_eq_nil_iff]
    intro a _
    rfl

/-- Witness for C1 amended at concrete channels and a concrete animation
list. -/
theorem C1_amended_witness :
    filterChannel scale c1Chan = none ∧
    filterChannel scale c1ChanRot = some c1ChanRot ∧
    animationPass scale [⟨[c1ChanRot]⟩] = [] :=
  C1_amended scale c1Chan c1ChanRot [⟨[c1ChanRot]⟩]
    (by decide) (by decide) (by decide) rfl

/-- C2: the code applies the captured world transform to the mesh geometry
once per primitive inside the skinning loop (src/main.js line 323 sits inside
the loop started at line 298), not exactly once in total.  With a pure
x-translation as the captured world transform and a two-primitive mesh whose
vertices sit at the origin, both vertices end at x = 2, whereas a single
application of the transform moves the origin to x = 1. -/
theorem C2_code_bug :
    (processMesh translX 7 c2Mesh).primitives.map Primitive.positions =
      [[(2, 0, 0)], [(2, 0, 0)]] ∧
    transformMat4 translX (0, 0, 0) = (1, 0, 0) := by
  constructor
  · norm_num +decide [processMesh, c2Mesh, transformMesh, transformMat4, setRigid, translX,
      scalingMat, scale, updateNth, List.range_succ]
  · norm_num +decide [transformMat4, translX]

/-- C5: if the donor scene has zero children, the graft fails with
MissingDonorRoot instead of proceeding. -/
theorem C5_missing_donor_root (sceneChildren donorChildren : List ℕ)
    (h : donorChildren = []) :
    graft sceneChildren donorChildren = Except.error ConvertError.missingDonorRoot := by
  subst h
  rfl

/-- Witness for C5 at a concrete target scene and an empty donor scene. -/
theorem C5_missing_donor_root_witness :
    graft [7] [] = Except.error ConvertError.missingDonorRoot :=
  C5_missing_donor_root [7] [] rfl

/-- C6 counterexample: for joint index 256 the stored joint buffer holds
[0, 0, 0, 0] rather than the claimed [k, 0, 0, 0], because the Uint8Array
store truncates modulo 256. -/
theorem C6_counterexample :
    joints0Array 256 1 = [0, 0, 0, 0] ∧ joints0Array 256 1 ≠ [256, 0, 0, 0] := by
  decide

/-- C6 amended: provided the resolved joint index is below 256, every vertex
of a rigidly bound primitive gets joint buffer [k, 0, 0, 0] and weight buffer
[1, 0, 0, 0]; in general the stored joint value is k modulo 256. -/
theorem C6_amended (k count w : ℕ) (hk : k < 256) (hw : w < count) :
    ((joints0Array k count)[4 * w]? = some k ∧
     (joints0Array k count)[4 * w + 1]? = some 0 ∧
     (joints0Array k count)[4 * w + 2]? = some 0 ∧
     (joints0Array k count)[4 * w + 3]? = some 0) ∧
    ((weights0Array count)[4 * w]? = some 1 ∧
     (weights0Array count)[4 * w + 1]? = some 0 ∧
     (weights0Array count)[4 * w + 2]? = some 0 ∧
     (weights0Array count)[4 * w + 3]? = some 0) := by
  have hk2 : k % 256 = k := Nat.mod_eq_of_lt hk
  refine ⟨⟨?_, ?_, ?_, ?_⟩, ?_, ?_, ?_, ?_⟩
  · rw [joints0Array, getElem_rangeMap _ _ _ (by omega)]
    simp [show (4 * w) % 4 = 0 by omega, hk2]
  · rw [joints0Array, getElem_rangeMap _ _ _ (by omega)]
    simp [show (4 * w + 1) % 4 = 1 by omega]
  · rw [joints0Array, getElem_rangeMap _ _ _ (by omega)]
    simp [show (4 * w + 2) % 4 = 2 by omega]
  · rw [joints0Array, getElem_rangeMap _ _ _ (by omega)]
    simp [show (4 * w + 3) % 4 = 3 by omega]
  · rw [weights0Array, getElem_rangeMap _ _ _ (by omega)]
    simp [show (4 * w) % 4 = 0 by omega]
  · rw [weights0Array, getElem_rangeMap _ _ _ (by omega)]
    simp [show (4 * w + 1) % 4 = 1 by omega]
  · rw [weights0Array, getElem_rangeMap _ _ _ (by omega)]
    simp [show (4 * w + 2) % 4 = 2 by omega]
  · rw [weights0Array, getElem_rangeMap _ _ _ (by omega)]
    simp [show (4 * w + 3) % 4 = 3 by omega]

/-- Witness for C6 amended: joint index 5, two vertices, vertex 1. -/
theorem C6_amended_witness :
    ((joints0Array 5 2)[4 * 1]? = some 5 ∧
     (joints0Array 5 2)[4 * 1 + 1]? = some 0 ∧
     (joints0Array 5 2)[4 * 1 + 2]? = some 0 ∧
     (joints0Array 5 2)[4 * 1 + 3]? = some 0) ∧
    ((weights0Array 2)[4 * 1]? = some 1 ∧
     (weights0Array 2)[4 * 1 + 1]? = some 0 ∧
     (weights0Array 2)[4 * 1 + 2]? = some 0 ∧
     (weights0Array 2)[4 * 1 + 3]? = some 0) :=
  C6_amended 5 2 1 (by decide) (by decide)

/-- C7: for every translation-path channel targeting the designated root node,
the channel filter retains the channel and multiplies every keyframe value by
the fixed uniform scale factor 0.0352 = 0.032 * 1.1; in particular the
keyframe (10, 0, 0) becomes (0.352, 0, 0). -/
theorem C7_root_translation (ch : Channel)
    (hname : ch.targetName = rootNodeName) (hpath : ch.targetPath = "translation") :
    filterChannel scale ch =
      some { ch with output := ch.output.map (fun v => vec3scale v scale) } ∧
    scale = 0.0352 ∧
    vec3scale (10, 0, 0) scale = (0.352, 0, 0) := by
  refine ⟨?_, by norm_num [scale], by norm_num [vec3scale, scale]⟩
  unfold filterChannel
  rw [if_pos hname, hpath]
  rw [if_neg (by decide : ¬("translation" : String) = "scale"), if_pos rfl]

/-- Witness for C7 at a concrete root translation channel. -/
theorem C7_root_translation_witness :
    filterChannel scale c7Chan =
      some { c7Chan with output := c7Chan.output.map (fun v => vec3scale v scale) } ∧
    scale = 0.0352 ∧
    vec3scale (10, 0, 0) scale = (0.352, 0, 0) :=
  C7_root_translation c7Chan rfl rfl

/-- C8: the atlas grid side is the ceiling of the square root of the primitive
count (least g with n ≤ g²), the target atlas pixel size is 64 times the grid
side, the UV remap follows the column/row formula, and at primitive count 5
the grid side is 3, slot 3 sits at row 1 and column 0, and the UV (1/2, 1/2)
in slot 3 remaps to (1/6, 1/2) — exactly the decimal 0.1667 rounded in the
spec, and 1/2. -/
theorem C8_atlas_layout (n slotIndex : ℕ) (u v : ℚ) (hn : 0 < n) :
    (n ≤ atlasWidth n * atlasWidth n ∧ (atlasWidth n - 1) * (atlasWidth n - 1) < n) ∧
    targetAtlasSize n = atlasWidth n * 64 ∧
    remapUv slotIndex (atlasWidth n) (u, v) =
      ((u + (slotIndex % atlasWidth n : ℕ)) / (atlasWidth n : ℚ),
       (v + (slotIndex / atlasWidth n : ℕ)) / (atlasWidth n : ℚ)) ∧
    atlasWidth 5 = 3 ∧ targetAtlasSize 5 = 192 ∧
    3 % atlasWidth 5 = 0 ∧ 3 / atlasWidth 5 = 1 ∧
    remapUv 3 (atlasWidth 5) (1/2, 1/2) = (1/6, 1/2) := by
  have hsqrt5 : Nat.sqrt 5 = 2 := by
    have h1 : 2 ≤ Nat.sqrt 5 := Nat.le_sqrt.mpr (by norm_num)
    have h2 : Nat.sqrt 5 < 3 := Nat.sqrt_lt.mpr (by norm_num)
    omega
  have h3 : atlasWidth 5 = 3 := by
    unfold atlasWidth
    rw [hsqrt5]
    norm_num
  refine ⟨?_, rfl, rfl, h3, by rw [targetAtlasSize, h3], by rw [h3], by rw [h3], ?_⟩
  · unfold atlasWidth
    by_cases h : Nat.sqrt n * Nat.sqrt n = n
    · rw [if_pos h]
      have hs : 0 < Nat.sqrt n := Nat.sqrt_pos.mpr hn
      obtain ⟨m, hm⟩ : ∃ m, Nat.sqrt n = m + 1 := ⟨Nat.sqrt n - 1, by omega⟩
      rw [hm] at h ⊢
      constructor
      · omega
      · simp only [Nat.add_sub_cancel]
        have hlt : m * m < (m + 1) * (m + 1) := by nlinarith
        omega
    · rw [if_neg h]
      have h1 := Nat.sqrt_le n
      have h2 := Nat.lt_succ_sqrt n
      constructor
      · calc n ≤ (Nat.sqrt n + 1) * (Nat.sqrt n + 1) := Nat.le_of_lt h2
          _ = _ := rfl
      · simp only [Nat.add_sub_cancel]
        omega
  · rw [h3]
    norm_num [remapUv]

/-- Witness for C8 at primitive count 5, slot 3 and UV (1/2, 1/2). -/
theorem C8_atlas_layout_witness :
    ((5 : ℕ) ≤ atlasWidth 5 * atlasWidth 5 ∧
      (atlasWidth 5 - 1) * (atlasWidth 5 - 1) < 5) ∧
    targetAtlasSize 5 = atlasWidth 5 * 64 ∧
    remapUv 3 (atlasWidth 5) (1/2, 1/2) =
      (((1/2 : ℚ) + ((3 % atlasWidth 5 : ℕ) : ℚ)) / (atlasWidth 5 : ℚ),
       ((1/2 : ℚ) + ((3 / atlasWidth 5 : ℕ) : ℚ)) / (atlasWidth 5 : ℚ)) ∧
    atlasWidth 5 = 3 ∧ targetAtlasSize 5 = 192 ∧
    3 % atlasWidth 5 = 0 ∧ 3 / atlasWidth 5 = 1 ∧
    remapUv 3 (atlasWidth 5) (1/2, 1/2) = (1/6, 1/2) :=
  C8_atlas_layout 5 3 (1/2) (1/2) (by decide)

/-- C10: rigid-skin joint indices are written through a Uint8Array, so the
stored value at every vertex slot is the resolved joint index modulo 256; the
stored value equals the joint index itself exactly when the index is below
256. -/
theorem C10_uint8_truncation (k count w : ℕ) (hw : w < count) :
    (joints0Array k count)[4 * w]? = some (k % 256) ∧ (k % 256 = k ↔ k < 256) := by
  constructor
  · rw [joints0Array, getElem_rangeMap _ _ _ (by omega)]
    simp [show (4 * w) % 4 = 0 by omega]
  · constructor
    · intro h
      rw [← h]
      exact Nat.mod_lt _ (by norm_num)
    · exact Nat.mod_eq_of_lt

/-- Witness for C10 at joint index 300 (stored as 44). -/
theorem C10_uint8_truncation_witness :
    (joints0Array 300 1)[4 * 0]? = some (300 % 256) ∧ (300 % 256 = 300 ↔ 300 < 256) :=
  C10_uint8_truncation 300 1 0 (by decide)

/-- Helper: a successful lookup in the joints-index fold returns a member
joint carrying the looked-up name, or comes from the initial index. -/
lemma buildIndexAux_eq_some (js : List Joint) (idx0 : String → Option Joint)
    (n : String) (j : Joint)
    (h : js.foldl (fun idx j2 => fun m => if m = j2.name then some j2 else idx m) idx0 n =
      some j) :
    (j ∈ js ∧ j.name = n) ∨ idx0 n = some j := by
  induction js generalizing idx0 with
  | nil => exact Or.inr h
  | cons a as ih =>
    rcases ih _ h with h1 | h1
    · exact Or.inl ⟨List.mem_cons_of_mem _ h1.1, h1.2⟩
    · replace h1 : (if n = a.name then some a else idx0 n) = some j := h1
      by_cases hm : n = a.name
      · rw [if_pos hm] at h1
        injection h1 with h1
        subst h1
        exact Or.inl ⟨List.mem_cons_self a as, hm.symm⟩
      · rw [if_neg hm] at h1
        exact Or.inr h1

/-- Helper: a successful lookup in the joints index returns a member joint
carrying the looked-up name. -/
lemma buildIndex_eq_some (js : List Joint) (n : String) (j : Joint)
    (h : buildIndex js n = some j) : j ∈ js ∧ j.name = n := by
  rcases buildIndexAux_eq_some js (fun _ => none) n j h with h1 | h1
  · exact h1
  · cases h1

/-- Helper: a failed lookup in the joints-index fold means no listed joint
carries the name. -/
lemma buildIndexAux_eq_none (js : List Joint) (idx0 : String → Option Joint)
    (n : String)
    (h : js.foldl (fun idx j2 => fun m => if m = j2.name then some j2 else idx m) idx0 n =
      none) :
    (∀ j ∈ js, j.name ≠ n) ∧ idx0 n = none := by
  induction js generalizing idx0 with
  | nil => exact ⟨fun j hj => absurd hj (List.not_mem_nil j), h⟩
  | cons a as ih =>
    obtain ⟨h1, h2⟩ := ih _ h
    replace h2 : (if n = a.name then some a else idx0 n) = none := h2
    by_cases hm : n = a.name
    · rw [if_pos hm] at h2
      cases h2
    · rw [if_neg hm] at h2
      refine ⟨?_, h2⟩
      intro j hj
      rcases List.mem_cons.mp hj with rfl | hj2
      · exact fun hc => hm hc.symm
      · exact h1 j hj2

/-- Helper: a failed lookup in the joints index means no listed joint carries
the name. -/
lemma buildIndex_none_name (js : List Joint) (n : String) (h : buildIndex js n = none) :
    ∀ j ∈ js, j.name ≠ n :=
  (buildIndexAux_eq_none js (fun _ => none) n h).1

/-- Helper: when no listed joint carries the name, the fold preserves a failed
initial lookup. -/
lemma buildIndexAux_none_of (js : List Joint) (idx0 : String → Option Joint)
    (n : String) (h0 : idx0 n = none) (h : ∀ j ∈ js, j.name ≠ n) :
    js.foldl (fun idx j2 => fun m => if m = j2.name then some j2 else idx m) idx0 n = none := by
  induction js generalizing idx0 with
  | nil => exact h0
  | cons a as ih =>
    refine ih (fun m => if m = a.name then some a else idx0 m) ?_
      (fun j hj => h j (List.mem_cons_of_mem _ hj))
    show (if n = a.name then some a else idx0 n) = none
    rw [if_neg (fun hc => h a (List.mem_cons_self a as) hc.symm)]
    exact h0

/-- Helper: when no listed joint carries the name, the index lookup fails. -/
lemma buildIndex_eq_none_of (js : List Joint) (n : String) (h : ∀ j ∈ js, j.name ≠ n) :
    buildIndex js n = none :=
  buildIndexAux_none_of js (fun _ => none) n rfl h

/-- Helper: one prune step only removes joints. -/
lemma pruneStep_sublist (cur : List Joint) (idx : String → Option Joint) (n : String) :
    (pruneStep cur idx n).Sublist cur := by
  unfold pruneStep
  cases idx n with
  | none => exact List.Sublist.refl _
  | some j => exact List.filter_sublist _

/-- Helper: the deny-list fold only removes joints. -/
lemma foldlPrune_sublist (idx : String → Option Joint) (deny : List String)
    (cur : List Joint) :
    (deny.foldl (fun c m => pruneStep c idx m) cur).Sublist cur := by
  induction deny generalizing cur with
  | nil => exact List.Sublist.refl _
  | cons n ns ih => exact (ih _).trans (pruneStep_sublist cur idx n)

/-- Helper: under unique joint names, the prune step for a name leaves no
joint carrying that name. -/
lemma pruneStep_name_not_mem (js cur : List Joint) (n : String)
    (hnodup : (js.map Joint.name).Nodup) (hsub : cur.Sublist js) :
    ∀ k ∈ pruneStep cur (buildIndex js) n, k.name ≠ n := by
  intro k hk hkn
  unfold pruneStep at hk
  cases hidx : buildIndex js n with
  | none =>
    rw [hidx] at hk
    exact buildIndex_none_name js n hidx k (hsub.subset hk) hkn
  | some j =>
    rw [hidx] at hk
    obtain ⟨hj_mem, hj_name⟩ := buildIndex_eq_some js n j hidx
    unfold removeJoint at hk
    have hk_cur : k ∈ cur := List.mem_of_mem_filter hk
    have hk_id : k.id ≠ j.id := by
      have hfil := List.of_mem_filter hk
      simpa using hfil
    have hkj : k = j :=
      List.inj_on_of_nodup_map hnodup (hsub.subset hk_cur) hj_mem (by rw [hkn, hj_name])
    exact hk_id (by rw [hkj])

/-- Helper: under unique joint names, after the deny-list fold no joint
carries a deny-listed name. -/
lemma foldlPrune_name_not_mem (js : List Joint) (hnodup : (js.map Joint.name).Nodup)
    (deny : List String) :
    ∀ cur : List Joint, cur.Sublist js → ∀ n ∈ deny,
      ∀ k ∈ deny.foldl (fun c m => pruneStep c (buildIndex js) m) cur, k.name ≠ n := by
  induction deny with
  | nil =>
    intro cur hsub n hn
    cases hn
  | cons m ms ih =>
    intro cur hsub n hn k hk
    rcases List.mem_cons.mp hn with rfl | hn2
    · have hsub2 := foldlPrune_sublist (buildIndex js) ms (pruneStep cur (buildIndex js) n)
      exact pruneStep_name_not_mem js cur n hnodup hsub k (hsub2.subset hk)
    · exact ih (pruneStep cur (buildIndex js) m)
        ((pruneStep_sublist cur _ m).trans hsub) n hn2 k hk

/-- Helper: under unique joint names, pruning removes every deny-listed name
from the joint list. -/
lemma pruneJoints_name_not_mem (js : List Joint) (hnodup : (js.map Joint.name).Nodup)
    (deny : List String) (n : String) (hn : n ∈ deny) :
    ∀ k ∈ pruneJoints deny js, k.name ≠ n :=
  foldlPrune_name_not_mem js hnodup deny js (List.Sublist.refl js) n hn

/-- Helper: pruning over names absent from the index changes nothing. -/
lemma pruneJoints_noop (deny : List String) (js : List Joint) :
    (∀ n ∈ deny, buildIndex js n = none) → pruneJoints deny js = js := by
  unfold pruneJoints
  induction deny with
  | nil => intro h; rfl
  | cons m ms ih =>
    intro h
    show ms.foldl _ (pruneStep js (buildIndex js) m) = js
    have hstep : pruneStep js (buildIndex js) m = js := by
      unfold pruneStep
      rw [h m (List.mem_cons_self m ms)]
    rw [hstep]
    exact ih (fun n hn => h n (List.mem_cons_of_mem _ hn))

/-- Helper: the recompute pass under the all-invertible guard. -/
lemma recomputePass_all_invertible (s : Skin) (h : ∀ j ∈ s.joints, j.world.det ≠ 0) :
    recomputePass s =
      some { s with ibm := s.joints.map (fun j => j.world.det⁻¹ • j.world.adjugate) } := by
  unfold recomputePass
  rw [if_pos h]

/-- Helper: the scaled adjugate is a left inverse. -/
lemma invert_mul (m : M4) (h : m.det ≠ 0) : (m.det⁻¹ • m.adjugate) * m = 1 := by
  rw [Matrix.smul_mul, Matrix.adjugate_mul, smul_smul, inv_mul_cancel₀ h, one_smul]

/-- Helper: the scaled adjugate is a right inverse. -/
lemma mul_invert (m : M4) (h : m.det ≠ 0) : m * (m.det⁻¹ • m.adjugate) = 1 := by
  rw [Matrix.mul_smul, Matrix.mul_adjugate, smul_smul, inv_mul_cancel₀ h, one_smul]

/-- C4: after the recompute pass, entry i of the inverse-bind buffer is
exactly `mat4.invert` of joint i's world matrix, and multiplying it with that
world matrix on either side gives the identity exactly — hence also within
the 1e-5 tolerance the spec allows for floats. -/
theorem C4_ibm_inverse (s s1 : Skin) (h : recomputePass s = some s1)
    (i : ℕ) (j : Joint) (hj : s1.joints[i]? = some j) :
    ∃ b, s1.ibm[i]? = some b ∧ mat4invert j.world = some b ∧
      b * j.world = 1 ∧ j.world * b = 1 := by
  unfold recomputePass at h
  by_cases hdet : ∀ jt ∈ s.joints, jt.world.det ≠ 0
  · rw [if_pos hdet] at h
    injection h with h
    subst h
    have hjs : s.joints[i]? = some j := hj
    have hmem : j ∈ s.joints := List.getElem?_mem hjs
    have hd : j.world.det ≠ 0 := hdet j hmem
    refine ⟨j.world.det⁻¹ • j.world.adjugate, ?_, ?_, invert_mul _ hd, mul_invert _ hd⟩
    · show (s.joints.map fun j2 => j2.world.det⁻¹ • j2.world.adjugate)[i]? = _
      rw [List.getElem?_map, hjs]
      rfl
    · unfold mat4invert
      rw [if_neg hd]
  · rw [if_neg hdet] at h
    cases h

/-- Helper: concrete recompute run for the C4 witness. -/
lemma c4_run : recomputePass c4Skin = some c4Skin1 := by
  rw [recomputePass_all_invertible]
  · rfl
  · intro j hj
    rw [show c4Skin.joints = [⟨0, "Hips", 1⟩] from rfl] at hj
    rw [List.mem_singleton.mp hj]
    show (1 : M4).det ≠ 0
    simp [Matrix.det_one]

/-- Witness for C4 on a one-joint skin with identity world transform. -/
theorem C4_ibm_inverse_witness :
    ∃ b, c4Skin1.ibm[0]? = some b ∧ mat4invert (Joint.mk 0 "Hips" 1).world = some b ∧
      b * (Joint.mk 0 "Hips" 1).world = 1 ∧ (Joint.mk 0 "Hips" 1).world * b = 1 :=
  C4_ibm_inverse c4Skin c4Skin1 c4_run 0 (Joint.mk 0 "Hips" 1) rfl

/-- Helper: lookup in the name-to-index map fails when no joint carries the
name. -/
lemma nameToIndexFrom_eq_none (n : String) (js : List Joint)
    (h : ∀ j ∈ js, j.name ≠ n) : ∀ i, nameToIndexFrom n i js = none := by
  induction js with
  | nil => intro i; rfl
  | cons a as ih =>
    intro i
    unfold nameToIndexFrom
    rw [ih (fun j hj => h j (List.mem_cons_of_mem _ hj)) (i + 1)]
    show (if n = a.name then some i else none) = none
    rw [if_neg (fun hc => h a (List.mem_cons_self a as) hc.symm)]

/-- C3 counterexample: immediately after the prune block and before the
recompute block, the joint list of the concrete skin has length 1 while the
inverse-bind buffer still has its stale length 2, refuting the claim that the
two lengths agree at that point. -/
theorem C3_counterexample :
    (prunePass ["Jaw"] c3Skin).joints.length = 1 ∧
    (prunePass ["Jaw"] c3Skin).ibm.length = 2 := by
  constructor
  · rfl
  · rfl

/-- C3 amended: the buffer-length invariant holds only once the recompute
step that follows pruning has run: after prune plus recompute the inverse-bind
buffer length equals the joint-list length, and — given unique joint names —
no deny-listed name remains in the joint-name index built afterwards. -/
theorem C3_amended (deny : List String) (s s1 : Skin)
    (hnodup : (s.joints.map Joint.name).Nodup)
    (h : recomputePass (prunePass deny s) = some s1) :
    s1.ibm.length = s1.joints.length ∧
    ∀ n ∈ deny, nameToIndex s1.joints n = none := by
  unfold recomputePass at h
  by_cases hdet : ∀ jt ∈ (prunePass deny s).joints, jt.world.det ≠ 0
  · rw [if_pos hdet] at h
    injection h with h
    subst h
    constructor
    · show ((prunePass deny s).joints.map _).length = (prunePass deny s).joints.length
      rw [List.length_map]
    · intro n hn
      have hnames : ∀ k ∈ (prunePass deny s).joints, k.name ≠ n :=
        pruneJoints_name_not_mem s.joints hnodup deny n hn
      exact nameToIndexFrom_eq_none n _ hnames 0
  · rw [if_neg hdet] at h
    cases h

/-- Helper: concrete prune-plus-recompute run for the C3 witness. -/
lemma c3_run : recomputePass (prunePass ["Jaw"] c3Skin) = some c3Skin1 := by
  have hp : prunePass ["Jaw"] c3Skin = ⟨[⟨0, "Spine", 1⟩], [1, 1]⟩ := rfl
  rw [hp, recomputePass_all_invertible]
  · rfl
  · intro j hj
    rw [show (Skin.mk [⟨0, "Spine", (1 : M4)⟩] [1, 1]).joints = [⟨0, "Spine", 1⟩] from rfl] at hj
    rw [List.mem_singleton.mp hj]
    show (1 : M4).det ≠ 0
    simp [Matrix.det_one]

/-- Witness for C3 amended on the concrete two-joint skin. -/
theorem C3_amended_witness :
    c3Skin1.ibm.length = c3Skin1.joints.length ∧
    ∀ n ∈ ["Jaw"], nameToIndex c3Skin1.joints n = none :=
  C3_amended ["Jaw"] c3Skin c3Skin1 (by decide) c3_run

/-- Helper: first concrete run on the duplicate-name skin. -/
lemma c9dup_run1 : spliceSeq ["X"] c9Dup = some c9Dup1 := by
  have hp : prunePass ["X"] c9Dup = ⟨[⟨0, "X", 1⟩], [1, 1]⟩ := rfl
  unfold spliceSeq
  rw [hp, recomputePass_all_invertible]
  · rfl
  · intro j hj
    rw [show (Skin.mk [⟨0, "X", (1 : M4)⟩] [1, 1]).joints = [⟨0, "X", 1⟩] from rfl] at hj
    rw [List.mem_singleton.mp hj]
    show (1 : M4).det ≠ 0
    simp [Matrix.det_one]

/-- Helper: second concrete run on the duplicate-name skin removes the joint
that survived the first run. -/
lemma c9dup_run2 : spliceSeq ["X"] c9Dup1 = some c9Dup2 := by
  have hp : prunePass ["X"] c9Dup1 =
      ⟨[], [(1 : M4).det⁻¹ • (1 : M4).adjugate]⟩ := rfl
  unfold spliceSeq
  rw [hp, recomputePass_all_invertible]
  · rfl
  · intro j hj
    exact absurd hj (List.not_mem_nil j)

/-- C9 counterexample: with two distinct joints sharing a deny-listed name,
the second prune-plus-recompute run is neither a skip nor a no-op — it removes
the joint that survived the first run, so the remaining joints are not left
unchanged. -/
theorem C9_counterexample :
    spliceSeq ["X"] c9Dup = some c9Dup1 ∧ spliceSeq ["X"] c9Dup1 = some c9Dup2 ∧
    c9Dup1.joints.length = 1 ∧ c9Dup2.joints.length = 0 :=
  ⟨c9dup_run1, c9dup_run2, rfl, rfl⟩

/-- C9 amended: provided the skin's joint names are unique (the spec's stated
precondition for the joint index), a second prune-plus-recompute run on the
result of a first run skips every deny-listed name and returns the skin
unchanged — joints and inverse-bind matrices included. -/
theorem C9_amended (deny : List String) (s s1 : Skin)
    (hnodup : (s.joints.map Joint.name).Nodup)
    (h : spliceSeq deny s = some s1) :
    spliceSeq deny s1 = some s1 := by
  obtain ⟨js, ib⟩ := s
  have hps : prunePass deny (Skin.mk js ib) = Skin.mk (pruneJoints deny js) ib := rfl
  unfold spliceSeq at h
  rw [hps] at h
  unfold recomputePass at h
  by_cases hdet : ∀ jt ∈ (Skin.mk (pruneJoints deny js) ib).joints, jt.world.det ≠ 0
  · rw [if_pos hdet] at h
    injection h with h
    have hdet2 : ∀ jt ∈ pruneJoints deny js, jt.world.det ≠ 0 := hdet
    have hs1 : s1 = Skin.mk (pruneJoints deny js)
        ((pruneJoints deny js).map (fun j => j.world.det⁻¹ • j.world.adjugate)) := h.symm
    subst hs1
    have hnodup2 : ((js.map Joint.name) : List String).Nodup := hnodup
    have hnone : ∀ n ∈ deny, buildIndex (pruneJoints deny js) n = none := by
      intro n hn
      exact buildIndex_eq_none_of _ n
        (fun k hk => pruneJoints_name_not_mem js hnodup2 deny n hn k hk)
    have hpr : pruneJoints deny (pruneJoints deny js) = pruneJoints deny js :=
      pruneJoints_noop deny _ hnone
    have hps2 : prunePass deny (Skin.mk (pruneJoints deny js)
          ((pruneJoints deny js).map (fun j => j.world.det⁻¹ • j.world.adjugate))) =
        Skin.mk (pruneJoints deny js)
          ((pruneJoints deny js).map (fun j => j.world.det⁻¹ • j.world.adjugate)) := by
      show Skin.mk (pruneJoints deny (pruneJoints deny js)) _ = _
      rw [hpr]
    unfold spliceSeq
    rw [hps2, recomputePass_all_invertible _ hdet2]
  · rw [if_neg hdet] at h
    cases h

/-- Helper: concrete first run for the C9 witness. -/
lemma c9_run1 : spliceSeq ["Tail"] c9s0 = some c9s1 := by
  have hp : prunePass ["Tail"] c9s0 = ⟨[⟨0, "Spine", 1⟩], [1, 1]⟩ := rfl
  unfold spliceSeq
  rw [hp, recomputePass_all_invertible]
  · rfl
  · intro j hj
    rw [show (Skin.mk [⟨0, "Spine", (1 : M4)⟩] [1, 1]).joints = [⟨0, "Spine", 1⟩] from rfl] at hj
    rw [List.mem_singleton.mp hj]
    show (1 : M4).det ≠ 0
    simp [Matrix.det_one]

/-- Witness for C9 amended: a second run on the already-processed concrete
skin returns it unchanged. -/
theorem C9_amended_witness : spliceSeq ["Tail"] c9s1 = some c9s1 :=
  C9_amended ["Tail"] c9s0 c9s1 (by decide) c9_run1

end Msq
